import Mathlib

/-!
syslog.h (MinGW) : priority, facility, option and mask encodings.

A shallow embedding of the macros of `src/syslog/src/syslog_mingw.h`.
A C `int` is modelled as a Lean `Int`; the bitwise operators of C on
two's-complement integers are `Int.lor`, `Int.land`, `Int.xor` and
`Int.shiftRight`, and the cast `(unsigned int)` is reduction modulo `2 ^ 32`.
-/

namespace Syslog

/-! ## C operators -/

/-- The predicate "fits in a 32-bit signed `int`". -/
def isInt32 (x : Int) : Prop := -2147483648 ≤ x ∧ x ≤ 2147483647

instance (x : Int) : Decidable (isInt32 x) := by
  unfold isInt32; infer_instance

/-- The cast `(unsigned int)(x)` of a C `int`: the value modulo `2 ^ 32`. -/
def toUInt (x : Int) : Int := x % 4294967296

/-- The C expression `a << n`, on the range where C defines it (`0 ≤ a`, `0 ≤ n < 32`,
result representable): the value `a * 2 ^ n`. -/
def shl (a n : Int) : Int := a * 2 ^ n.toNat

/-- The C expression `a >> n` for a non-negative shift count. -/
def shr (a n : Int) : Int := Int.shiftRight a n.toNat

/-! ## Message severity ratings (lines 37-44) -/

def LOG_EMERG : Int := 7
def LOG_ALERT : Int := 6
def LOG_CRIT : Int := 5
def LOG_ERR : Int := 4
def LOG_WARNING : Int := 3
def LOG_NOTICE : Int := 2
def LOG_INFO : Int := 1
def LOG_DEBUG : Int := 0

/-! ## Facility codes (lines 50-80) -/

/-- The macro `__syslog_facility_offset`. -/
def __syslog_facility_offset : Int := 4

/-- The macro `__syslog_facility(id)`, that is `((id) << __syslog_facility_offset)`. -/
def __syslog_facility (id : Int) : Int := shl id __syslog_facility_offset

def LOG_USER : Int := __syslog_facility 0
def LOG_SYSLOG : Int := __syslog_facility 1
def LOG_NEWS : Int := __syslog_facility 2
def LOG_MAIL : Int := __syslog_facility 3
def LOG_LPR : Int := __syslog_facility 4
def LOG_LOCAL0 : Int := __syslog_facility 5
def LOG_LOCAL1 : Int := __syslog_facility 6
def LOG_LOCAL2 : Int := __syslog_facility 7
def LOG_LOCAL3 : Int := __syslog_facility 8
def LOG_LOCAL4 : Int := __syslog_facility 9
def LOG_LOCAL5 : Int := __syslog_facility 10
def LOG_LOCAL6 : Int := __syslog_facility 11
def LOG_LOCAL7 : Int := __syslog_facility 12
def LOG_KERN : Int := __syslog_facility 13
def LOG_FTP : Int := __syslog_facility 14
def LOG_DAEMON : Int := __syslog_facility 15
def LOG_CRON : Int := __syslog_facility 16
def LOG_AUTHPRIV : Int := __syslog_facility 17
def LOG_AUTH : Int := __syslog_facility 18
def LOG_UUCP : Int := __syslog_facility 19

/-! ## Options of `openlog` (lines 86-91) -/

def LOG_CONS : Int := shl 1 0
def LOG_NDELAY : Int := shl 1 1
def LOG_NOWAIT : Int := shl 1 2
def LOG_ODELAY : Int := shl 1 3
def LOG_PERROR : Int := shl 1 4
def LOG_PID : Int := shl 1 5

/-! ## Mask macros (lines 98-113) -/

/-- The macro `__logmask_enable_bit`, that is `((1 << (LOG_EMERG + 1)))`. -/
def __logmask_enable_bit : Int := shl 1 (LOG_EMERG + 1)

/-- The macro `__logmask_valid_bits`, that is `(__logmask_enable_bit - 1)`. -/
def __logmask_valid_bits : Int := __logmask_enable_bit - 1

/-- The macro `__logmask_bits(id)`, that is `(__logmask_enable_bit | (1 << (id)))`. -/
def __logmask_bits (id : Int) : Int := Int.lor __logmask_enable_bit (shl 1 id)

/-- The macro `__logmask_valid(id)`, that is
`((LOG_EMERG >= (unsigned int)(id)) ? (id) : 0)`. -/
def __logmask_valid (id : Int) : Int := if LOG_EMERG ≥ toUInt id then id else 0

/-- The macro `__logmask_enable(id)`, that is
`(__logmask_valid(id) ? __logmask_enable_bit : 0)`. -/
def __logmask_enable (id : Int) : Int :=
  if __logmask_valid id ≠ 0 then __logmask_enable_bit else 0

/-- The macro `__logmask(id)`, that is `(__logmask_valid(id) ? __logmask_bits(id) : 0)`. -/
def __logmask (id : Int) : Int :=
  if __logmask_valid id ≠ 0 then __logmask_bits id else 0

/-- The macro `LOG_MASK( priority )`, that is `__logmask( priority )`. -/
def LOG_MASK (priority : Int) : Int := __logmask priority

/-- The eight severity ratings, in the order of their definition in the header. -/
def priorities : List Int :=
  [LOG_EMERG, LOG_ALERT, LOG_CRIT, LOG_ERR, LOG_WARNING, LOG_NOTICE, LOG_INFO, LOG_DEBUG]

/-- The six `openlog` options, in the order of their definition in the header. -/
def openOptions : List Int :=
  [LOG_CONS, LOG_NDELAY, LOG_NOWAIT, LOG_ODELAY, LOG_PERROR, LOG_PID]

/-- The logical OR of the option values in `S` (the C expression `o1 | o2 | ...`). -/
def orOptions (S : List Int) : Int := S.foldl Int.lor 0

/-- The logical OR of `LOG_MASK(q)` over the priorities `q` in `S`
(the C expression `LOG_MASK(q1) | LOG_MASK(q2) | ...`). -/
def orMasks (S : List Int) : Int := S.foldl (fun acc q => Int.lor acc (LOG_MASK q)) 0

/-! ## The mask registry -/

/-- Modelled from the spec: the state of the MaskRegistry of section 4.2 ("integer bitmask,
absent-sentinel flag (initially never set)"); the header declares only the prototype of
`setlogmask`. -/
structure MaskRegistry where
  mask : Int
  installed : Bool
deriving DecidableEq

/-- Modelled from the spec: the initial registry, whose mask was never set. -/
def MaskRegistry.initial : MaskRegistry := { mask := 0, installed := false }

/-- Modelled from the spec: `setMask(newBits) -> previousBits` of section 4.2; the body of
`setlogmask` is not in the header. A zero argument is a read-only query; any other argument
replaces the mask and returns the prior value. -/
def setMask (s : MaskRegistry) (newBits : Int) : MaskRegistry × Int :=
  if newBits = 0 then (s, s.mask)
  else ({ mask := newBits, installed := true }, s.mask)

/-- Modelled from the spec: `setlogmask(bits)` of section 4.4, which delegates to `setMask`;
the header gives only the prototype `int setlogmask (int)`. -/
def setlogmask (s : MaskRegistry) (bits : Int) : MaskRegistry × Int := setMask s bits

/-- Modelled from the spec: `isEnabled(priority)` of section 4.2; priorities outside `[0,7]`
are disabled, a registry whose mask was never set enables all priorities, otherwise the
priority is enabled exactly when its bit is set in the mask. -/
def isEnabled (s : MaskRegistry) (priority : Int) : Bool :=
  if priority < 0 ∨ 7 < priority then false
  else if s.installed = false ∧ Int.testBit s.mask 8 = false then true
  else Int.testBit s.mask priority.toNat

/-! ## Basic evaluation lemmas -/

theorem enable_bit_eq : __logmask_enable_bit = 256 := by decide

theorem valid_eq_of_range (p : Int) (h0 : 0 ≤ p) (h7 : p ≤ 7) : __logmask_valid p = p := by
  unfold __logmask_valid toUInt LOG_EMERG
  rw [if_pos]
  omega

theorem valid_eq_zero_of_out (p : Int) (h32 : isInt32 p) (hout : p < 0 ∨ 7 < p) :
    __logmask_valid p = 0 := by
  unfold isInt32 at h32
  unfold __logmask_valid toUInt LOG_EMERG
  rw [if_neg]
  omega

theorem LOG_MASK_eq_bits (p : Int) (h1 : 1 ≤ p) (h7 : p ≤ 7) :
    LOG_MASK p = Int.lor (shl 1 8) (shl 1 p) := by
  interval_cases p <;> decide

/-! ## Bitwise operators on non-negative values -/

theorem lor_ofNat (a b : Nat) : Int.lor (a : Int) (b : Int) = ((a ||| b : Nat) : Int) := rfl

theorem land_ofNat (a b : Nat) : Int.land (a : Int) (b : Int) = ((a &&& b : Nat) : Int) := rfl

theorem shiftRight_ofNat (a k : Nat) : Int.shiftRight (a : Int) k = ((a >>> k : Nat) : Int) := rfl

theorem facility_ofNat (n : Nat) : __syslog_facility (n : Int) = ((2 ^ 4 * n : Nat) : Int) := by
  unfold __syslog_facility shl __syslog_facility_offset
  have h4 : (4 : Int).toNat = 4 := rfl
  rw [h4]
  push_cast
  ring

/-! ## Folding options and masks -/

theorem options_step : ∀ n : Nat, n < 64 → ∀ x ∈ openOptions, ∀ o ∈ openOptions,
    (0 ≤ Int.lor (n : Int) x ∧ Int.lor (n : Int) x < 64) ∧
    (Int.land (Int.lor (n : Int) x) o ≠ 0 ↔ (Int.land (n : Int) o ≠ 0 ∨ x = o)) := by
  decide

theorem options_foldl (S : List Int) : ∀ n : Nat, n < 64 → (∀ x ∈ S, x ∈ openOptions) →
    ∀ o ∈ openOptions,
      (Int.land (S.foldl Int.lor (n : Int)) o ≠ 0 ↔ (Int.land (n : Int) o ≠ 0 ∨ o ∈ S)) := by
  induction S with
  | nil => intro n _ _ o _; simp
  | cons x S ih =>
    intro n hn hS o ho
    have hx : x ∈ openOptions := hS x (List.mem_cons_self x S)
    have hS2 : ∀ y ∈ S, y ∈ openOptions := fun y hy => hS y (List.mem_cons_of_mem x hy)
    obtain ⟨⟨h0, h64⟩, hiff⟩ := options_step n hn x hx o ho
    obtain ⟨n2, hn2⟩ := Int.eq_ofNat_of_zero_le h0
    have hlt : n2 < 64 := by omega
    rw [List.foldl_cons, hn2, ih n2 hlt hS2 o ho, ← hn2, hiff, List.mem_cons, or_assoc]
    constructor
    · rintro (h | h | h)
      · exact Or.inl h
      · exact Or.inr (Or.inl h.symm)
      · exact Or.inr (Or.inr h)
    · rintro (h | h | h)
      · exact Or.inl h
      · exact Or.inr (Or.inl h.symm)
      · exact Or.inr (Or.inr h)

theorem testBit_LOG_MASK (q : Int) (h0 : 0 ≤ q) (h7 : q ≤ 7) (k : Nat) (hk : k ≤ 8) :
    Int.testBit (LOG_MASK q) k =
      (decide (1 ≤ q) && (decide (k = 8) || decide (q.toNat = k))) := by
  interval_cases q <;> interval_cases k <;> rfl

theorem testBit_foldl_masks (S : List Int) : ∀ acc : Int, (∀ q ∈ S, 0 ≤ q ∧ q ≤ 7) →
    ∀ k : Nat, k ≤ 8 →
      Int.testBit (S.foldl (fun a q => Int.lor a (LOG_MASK q)) acc) k =
        (Int.testBit acc k ||
          S.any (fun q => decide (1 ≤ q) && (decide (k = 8) || decide (q.toNat = k)))) := by
  induction S with
  | nil => intro acc _ k _; simp
  | cons x S ih =>
    intro acc hS k hk
    have hx := hS x (List.mem_cons_self x S)
    have hS2 : ∀ y ∈ S, 0 ≤ y ∧ y ≤ 7 := fun y hy => hS y (List.mem_cons_of_mem x hy)
    rw [List.foldl_cons, ih _ hS2 k hk, Int.testBit_lor, testBit_LOG_MASK x hx.1 hx.2 k hk,
      List.any_cons, Bool.or_assoc]

theorem testBit_orMasks (S : List Int) (hS : ∀ q ∈ S, 0 ≤ q ∧ q ≤ 7) (k : Nat) (hk : k ≤ 8) :
    Int.testBit (orMasks S) k =
      S.any (fun q => decide (1 ≤ q) && (decide (k = 8) || decide (q.toNat = k))) := by
  unfold orMasks
  rw [testBit_foldl_masks S 0 hS k hk]
  have hz : Int.testBit 0 k = false := by
    show Nat.testBit 0 k = false
    exact Nat.zero_testBit k
  rw [hz, Bool.false_or]

theorem foldl_masks_const (p : Int) (h0 : 0 ≤ p) (h7 : p ≤ 7) (S : List Int) :
    (∀ q ∈ S, q = p) → S.foldl (fun a q => Int.lor a (LOG_MASK q)) (LOG_MASK p) = LOG_MASK p := by
  induction S with
  | nil => intro _; rfl
  | cons x S ih =>
    intro hS
    have hx : x = p := hS x (List.mem_cons_self x S)
    have hidem : Int.lor (LOG_MASK p) (LOG_MASK p) = LOG_MASK p := by
      interval_cases p <;> rfl
    rw [List.foldl_cons, hx, hidem]
    exact ih (fun y hy => hS y (List.mem_cons_of_mem x hy))

theorem or_masks_testBit (a b q : Int) (ha1 : 1 ≤ a) (ha7 : a ≤ 7) (hb1 : 1 ≤ b) (hb7 : b ≤ 7)
    (hq0 : 0 ≤ q) (hq7 : q ≤ 7) :
    Int.testBit (Int.lor (LOG_MASK a) (LOG_MASK b)) q.toNat = true ↔ q = a ∨ q = b := by
  rw [Int.testBit_lor, testBit_LOG_MASK a (by omega) ha7 _ (by omega),
    testBit_LOG_MASK b (by omega) hb7 _ (by omega)]
  simp only [Bool.or_eq_true, Bool.and_eq_true, decide_eq_true_eq]
  omega

/-! ## Claims -/

/-- C1 (fails at the priority `LOG_DEBUG`): the macro `LOG_MASK(LOG_DEBUG)` evaluates to `0`,
whereas the sentinel bit OR-ed with the bit of `LOG_DEBUG` is `(1 << 8) | (1 << 0) = 257`. -/
theorem C1_LOG_MASK_debug_is_zero :
    0 ≤ LOG_DEBUG ∧ LOG_DEBUG ≤ 7 ∧ LOG_MASK LOG_DEBUG = 0 ∧
      Int.lor (shl 1 8) (shl 1 LOG_DEBUG) = 257 ∧
      LOG_MASK LOG_DEBUG ≠ Int.lor (shl 1 8) (shl 1 LOG_DEBUG) := by
  decide

/-- C2: for every 32-bit signed `p` outside `[0,7]`, `LOG_MASK(p)` is `0`; a negative `p`
is turned by the `(unsigned int)` cast into a value above `LOG_EMERG`. -/
theorem C2_LOG_MASK_out_of_range (p : Int) (h32 : isInt32 p) (hout : p < 0 ∨ 7 < p) :
    LOG_MASK p = 0 ∧ (p < 0 → LOG_EMERG < toUInt p) := by
  refine ⟨?_, ?_⟩
  · unfold LOG_MASK __logmask
    rw [valid_eq_zero_of_out p h32 hout]
    simp
  · intro hneg
    unfold isInt32 at h32
    unfold LOG_EMERG toUInt
    omega

/-- The out-of-range inputs `-1` and `8`. -/
theorem C2_LOG_MASK_out_of_range_witness :
    (LOG_MASK (-1) = 0 ∧ ((-1 : Int) < 0 → LOG_EMERG < toUInt (-1))) ∧
      (LOG_MASK 8 = 0 ∧ ((8 : Int) < 0 → LOG_EMERG < toUInt 8)) :=
  ⟨C2_LOG_MASK_out_of_range (-1) (by decide) (by decide),
   C2_LOG_MASK_out_of_range 8 (by decide) (by decide)⟩

/-- C3 (fails at `a = b = q = LOG_DEBUG`): bit `LOG_DEBUG` of
`LOG_MASK(LOG_DEBUG) | LOG_MASK(LOG_DEBUG)` is clear although `q = a`, because the value
is `0`; the example of the spec, `LOG_MASK(LOG_ERR) | LOG_MASK(LOG_WARNING)`, has exactly
the priority bits 4 and 3 set. -/
theorem C3_or_of_masks_misses_debug :
    Int.lor (LOG_MASK LOG_DEBUG) (LOG_MASK LOG_DEBUG) = 0 ∧
      Int.testBit (Int.lor (LOG_MASK LOG_DEBUG) (LOG_MASK LOG_DEBUG)) LOG_DEBUG.toNat = false ∧
      (∀ q ∈ priorities,
        (Int.testBit (Int.lor (LOG_MASK LOG_ERR) (LOG_MASK LOG_WARNING)) q.toNat = true ↔
          q = LOG_ERR ∨ q = LOG_WARNING)) := by
  decide

/-- C6: the sentinel `__logmask_enable_bit` is `1 << (LOG_EMERG + 1) = 256`,
`__logmask_valid_bits` is `255`, the OR of `1 << p` over the priorities `p` in `[0,7]`, and
the two share no bit. -/
theorem C6_mask_bit_layout :
    __logmask_enable_bit = shl 1 (LOG_EMERG + 1) ∧ __logmask_enable_bit = 256 ∧
      __logmask_valid_bits = 255 ∧
      __logmask_valid_bits = (priorities.map (shl 1)).foldl Int.lor 0 ∧
      Int.land __logmask_enable_bit __logmask_valid_bits = 0 ∧
      (∀ p ∈ priorities, Int.land __logmask_enable_bit (shl 1 p) = 0 ∧
        Int.land __logmask_valid_bits (shl 1 p) = shl 1 p) := by
  decide

/-- C9: the priority constants have the values 7 down to 0, are pairwise distinct, are
exactly the eight values of `[0,7]`, and each fits in the four low bits below the
facility offset. -/
theorem C9_priority_constants :
    LOG_EMERG = 7 ∧ LOG_ALERT = 6 ∧ LOG_CRIT = 5 ∧ LOG_ERR = 4 ∧ LOG_WARNING = 3 ∧
      LOG_NOTICE = 2 ∧ LOG_INFO = 1 ∧ LOG_DEBUG = 0 ∧
      priorities.Nodup ∧ priorities.length = 8 ∧
      (∀ v : Int, v ∈ priorities ↔ 0 ≤ v ∧ v ≤ 7) ∧
      (∀ v ∈ priorities, v < shl 1 __syslog_facility_offset ∧
        Int.land v (shl 1 __syslog_facility_offset - 1) = v) := by
  refine ⟨rfl, rfl, rfl, rfl, rfl, rfl, rfl, rfl, by decide, rfl, ?_, by decide⟩
  intro v
  simp only [priorities, LOG_EMERG, LOG_ALERT, LOG_CRIT, LOG_ERR, LOG_WARNING, LOG_NOTICE,
    LOG_INFO, LOG_DEBUG, List.mem_cons, List.mem_singleton, List.not_mem_nil, or_false]
  omega

/-- C10: for every 32-bit signed `p`, `__logmask_valid(p)` is `p` itself on `[0,7]` and `0`
elsewhere, so `LOG_MASK(p)` is non-zero exactly when `1 ≤ p ≤ 7`, `__logmask_enable(p)` is
`256` exactly when `1 ≤ p ≤ 7` and `0` otherwise, and `LOG_MASK(LOG_DEBUG) = 0`. -/
theorem C10_LOG_MASK_nonzero_iff (p : Int) (h32 : isInt32 p) :
    (__logmask_valid p = if 0 ≤ p ∧ p ≤ 7 then p else 0) ∧
      (LOG_MASK p ≠ 0 ↔ 1 ≤ p ∧ p ≤ 7) ∧
      (__logmask_enable p = if 1 ≤ p ∧ p ≤ 7 then 256 else 0) ∧
      LOG_MASK LOG_DEBUG = 0 := by
  have hv : __logmask_valid p = if 0 ≤ p ∧ p ≤ 7 then p else 0 := by
    by_cases h : 0 ≤ p ∧ p ≤ 7
    · rw [if_pos h, valid_eq_of_range p h.1 h.2]
    · rw [if_neg h, valid_eq_zero_of_out p h32 (by omega)]
  refine ⟨hv, ?_, ?_, by decide⟩
  · by_cases h : 1 ≤ p ∧ p ≤ 7
    · obtain ⟨h1, h7⟩ := h
      have hne : LOG_MASK p ≠ 0 := by
        interval_cases p <;> decide
      exact ⟨fun _ => ⟨h1, h7⟩, fun _ => hne⟩
    · have hz : LOG_MASK p = 0 := by
        unfold LOG_MASK __logmask
        rw [hv]
        split_ifs <;> first | rfl | omega
      exact ⟨fun hne => absurd hz hne, fun hr => absurd hr h⟩
  · unfold __logmask_enable
    rw [hv, enable_bit_eq]
    split_ifs <;> first | rfl | omega

/-- The in-range input `LOG_WARNING = 3`. -/
theorem C10_LOG_MASK_nonzero_iff_witness :
    (__logmask_valid 3 = if (0 : Int) ≤ 3 ∧ (3 : Int) ≤ 7 then 3 else 0) ∧
      (LOG_MASK 3 ≠ 0 ↔ (1 : Int) ≤ 3 ∧ (3 : Int) ≤ 7) ∧
      (__logmask_enable 3 = if (1 : Int) ≤ 3 ∧ (3 : Int) ≤ 7 then 256 else 0) ∧
      LOG_MASK LOG_DEBUG = 0 :=
  C10_LOG_MASK_nonzero_iff 3 (by decide)

/-- C4: for every priority `p` in `[0,7]` and every non-negative facility id `f` whose shift
`f << 4` fits in a 32-bit `int` (in particular the defined ids `0..19`), the code
`c = __syslog_facility(f) | p` satisfies `(c & 15) = p` and `(c >> 4) = f`. -/
theorem C4_facility_priority_roundtrip (f p : Int) (hf : 0 ≤ f)
    (hfit : isInt32 (__syslog_facility f)) (hp0 : 0 ≤ p) (hp7 : p ≤ 7) :
    Int.land (Int.lor (__syslog_facility f) p) 15 = p ∧
      shr (Int.lor (__syslog_facility f) p) __syslog_facility_offset = f := by
  obtain ⟨n, rfl⟩ := Int.eq_ofNat_of_zero_le hf
  obtain ⟨k, rfl⟩ := Int.eq_ofNat_of_zero_le hp0
  have hk : k < 2 ^ 4 := by omega
  have hc : Int.lor (__syslog_facility (n : Int)) (k : Int) = ((2 ^ 4 * n + k : Nat) : Int) := by
    rw [facility_ofNat, lor_ofNat, ← Nat.mul_add_lt_is_or hk]
  rw [hc]
  constructor
  · have h15 : (15 : Int) = ((2 ^ 4 - 1 : Nat) : Int) := by norm_num
    rw [h15, land_ofNat, Nat.and_pow_two_sub_one_eq_mod]
    congr 1
    omega
  · unfold shr __syslog_facility_offset
    have h4 : (4 : Int).toNat = 4 := rfl
    rw [h4, shiftRight_ofNat, Nat.shiftRight_eq_div_pow]
    congr 1
    omega

/-- The round trip at the facility `LOG_UUCP` (id 19) and the priority `LOG_EMERG`. -/
theorem C4_facility_priority_roundtrip_witness :
    Int.land (Int.lor (__syslog_facility 19) LOG_EMERG) 15 = LOG_EMERG ∧
      shr (Int.lor (__syslog_facility 19) LOG_EMERG) __syslog_facility_offset = 19 :=
  C4_facility_priority_roundtrip 19 LOG_EMERG (by decide) (by decide) (by decide) (by decide)

/-- C5 (amended): for a collection `S` of priorities in `[0,7]`, `m` the OR of `LOG_MASK(q)`
over `S` and `p` in `S`, the value `m ^ LOG_MASK(p)` has priority bit `p` clear and agrees
with `m` on every other priority bit; it is zero when `p` is the only member of `S` (the
XOR cancels the sentinel as well) and non-zero when `S` holds another priority in `[1,7]`. -/
theorem C5_xor_removes_priority (S : List Int) (hS : ∀ q ∈ S, 0 ≤ q ∧ q ≤ 7) (p : Int)
    (hp : p ∈ S) :
    Int.testBit (Int.xor (orMasks S) (LOG_MASK p)) p.toNat = false ∧
      (∀ q : Int, 0 ≤ q → q ≤ 7 → q ≠ p →
        Int.testBit (Int.xor (orMasks S) (LOG_MASK p)) q.toNat =
          Int.testBit (orMasks S) q.toNat) ∧
      ((∀ q ∈ S, q = p) → Int.xor (orMasks S) (LOG_MASK p) = 0) ∧
      ((∃ q ∈ S, q ≠ p ∧ 1 ≤ q) → Int.xor (orMasks S) (LOG_MASK p) ≠ 0) := by
  obtain ⟨hp0, hp7⟩ := hS p hp
  refine ⟨?_, ?_, ?_, ?_⟩
  · rw [Int.testBit_lxor, testBit_orMasks S hS _ (by omega),
      testBit_LOG_MASK p hp0 hp7 _ (by omega)]
    by_cases h1 : 1 ≤ p
    · have hany : S.any (fun q => decide (1 ≤ q) &&
          (decide (p.toNat = 8) || decide (q.toNat = p.toNat))) = true :=
        List.any_eq_true.mpr ⟨p, hp, by simp [h1]⟩
      rw [hany]
      simp [h1]
    · have hany : S.any (fun q => decide (1 ≤ q) &&
          (decide (p.toNat = 8) || decide (q.toNat = p.toNat))) = false := by
        rw [List.any_eq_false]
        intro q hq
        have := hS q hq
        simp only [Bool.and_eq_true, Bool.or_eq_true, decide_eq_true_eq]
        omega
      rw [hany]
      simp [h1]
  · intro q hq0 hq7 hne
    rw [Int.testBit_lxor, testBit_LOG_MASK p hp0 hp7 _ (by omega)]
    have h8 : decide (q.toNat = 8) = false := by
      rw [decide_eq_false_iff_not]; omega
    have hpq : decide (p.toNat = q.toNat) = false := by
      rw [decide_eq_false_iff_not]; omega
    rw [h8, hpq]
    simp
  · intro hall
    obtain ⟨x, T, rfl⟩ : ∃ x T, S = x :: T := by
      cases S with
      | nil => exact absurd hp (List.not_mem_nil p)
      | cons x T => exact ⟨x, T, rfl⟩
    have hx : x = p := hall x (List.mem_cons_self x T)
    have hm : orMasks (x :: T) = LOG_MASK p := by
      unfold orMasks
      have h0 : Int.lor 0 (LOG_MASK p) = LOG_MASK p := by
        interval_cases p <;> rfl
      rw [List.foldl_cons, hx, h0]
      exact foldl_masks_const p hp0 hp7 T (fun y hy => hall y (List.mem_cons_of_mem x hy))
    rw [hm]
    interval_cases p <;> rfl
  · rintro ⟨q, hq, hne, h1⟩ hzero
    obtain ⟨hq0, hq7⟩ := hS q hq
    have hbit : Int.testBit (Int.xor (orMasks S) (LOG_MASK p)) q.toNat = true := by
      rw [Int.testBit_lxor, testBit_orMasks S hS _ (by omega),
        testBit_LOG_MASK p hp0 hp7 _ (by omega)]
      have hany : S.any (fun r => decide (1 ≤ r) &&
          (decide (q.toNat = 8) || decide (r.toNat = q.toNat))) = true :=
        List.any_eq_true.mpr ⟨q, hq, by simp [h1]⟩
      have h8 : decide (q.toNat = 8) = false := by
        rw [decide_eq_false_iff_not]; omega
      have hpq : decide (p.toNat = q.toNat) = false := by
        rw [decide_eq_false_iff_not]; omega
      rw [hany, h8, hpq]
      simp
    rw [hzero] at hbit
    have hz : Int.testBit 0 q.toNat = false := by
      show Nat.testBit 0 q.toNat = false
      exact Nat.zero_testBit _
    rw [hz] at hbit
    exact Bool.noConfusion hbit

/-- Removing `LOG_ERR` from the mask of `LOG_ERR` and `LOG_WARNING`. -/
theorem C5_xor_removes_priority_witness :
    Int.testBit (Int.xor (orMasks [LOG_ERR, LOG_WARNING]) (LOG_MASK LOG_ERR)) LOG_ERR.toNat
        = false ∧
      (∀ q : Int, 0 ≤ q → q ≤ 7 → q ≠ LOG_ERR →
        Int.testBit (Int.xor (orMasks [LOG_ERR, LOG_WARNING]) (LOG_MASK LOG_ERR)) q.toNat =
          Int.testBit (orMasks [LOG_ERR, LOG_WARNING]) q.toNat) ∧
      ((∀ q ∈ [LOG_ERR, LOG_WARNING], q = LOG_ERR) →
        Int.xor (orMasks [LOG_ERR, LOG_WARNING]) (LOG_MASK LOG_ERR) = 0) ∧
      ((∃ q ∈ [LOG_ERR, LOG_WARNING], q ≠ LOG_ERR ∧ 1 ≤ q) →
        Int.xor (orMasks [LOG_ERR, LOG_WARNING]) (LOG_MASK LOG_ERR) ≠ 0) :=
  C5_xor_removes_priority [LOG_ERR, LOG_WARNING] (by decide) LOG_ERR (by decide)

/-- C5 (as stated, refuted): with `S = {LOG_ERR}` and `p = LOG_ERR` the installed mask is
`LOG_MASK(LOG_ERR) = 272` and `m ^ LOG_MASK(p)` is zero. -/
theorem C5_xor_single_priority_is_zero :
    [LOG_ERR] ≠ [] ∧ (∀ q ∈ [LOG_ERR], 0 ≤ q ∧ q ≤ 7) ∧ LOG_ERR ∈ [LOG_ERR] ∧
      orMasks [LOG_ERR] = 272 ∧
      ¬ (Int.xor (orMasks [LOG_ERR]) (LOG_MASK LOG_ERR) ≠ 0) := by
  decide

/-- C7: `setlogmask(0)` returns the current mask and leaves the registry, hence every
later `isEnabled` result, unchanged, so a second `setlogmask(0)` returns the same value;
a non-zero argument replaces the mask and returns the prior one. -/
theorem C7_setlogmask_zero_is_query (s : MaskRegistry) (bits : Int) (hb : bits ≠ 0) :
    (setlogmask s 0).2 = s.mask ∧ (setlogmask s 0).1 = s ∧
      (∀ p : Int, isEnabled (setlogmask s 0).1 p = isEnabled s p) ∧
      (setlogmask (setlogmask s 0).1 0).2 = (setlogmask s 0).2 ∧
      (setlogmask s bits).1.mask = bits ∧ (setlogmask s bits).2 = s.mask := by
  have hq : setlogmask s 0 = (s, s.mask) := by simp [setlogmask, setMask]
  have hu : setlogmask s bits = ({ mask := bits, installed := true }, s.mask) := by
    simp [setlogmask, setMask, hb]
  rw [hq, hu]
  simp [hq]

/-- A registry holding `LOG_MASK(LOG_WARNING) = 264`, updated with `272`. -/
theorem C7_setlogmask_zero_is_query_witness :
    (setlogmask ⟨264, true⟩ 0).2 = (264 : Int) ∧
      (setlogmask ⟨264, true⟩ 0).1 = (⟨264, true⟩ : MaskRegistry) ∧
      (∀ p : Int, isEnabled (setlogmask ⟨264, true⟩ 0).1 p = isEnabled ⟨264, true⟩ p) ∧
      (setlogmask (setlogmask ⟨264, true⟩ 0).1 0).2 = (setlogmask ⟨264, true⟩ 0).2 ∧
      (setlogmask ⟨264, true⟩ 272).1.mask = 272 ∧ (setlogmask ⟨264, true⟩ 272).2 = (264 : Int) :=
  C7_setlogmask_zero_is_query ⟨264, true⟩ 272 (by decide)

/-- C8: the options are `LOG_CONS = 1`, `LOG_NDELAY = 2`, `LOG_NOWAIT = 4`, `LOG_ODELAY = 8`,
`LOG_PERROR = 16`, `LOG_PID = 32`, each a single bit `1 << k`, pairwise disjoint, and for
every collection `S` of options and every option `o`, `((OR of S) & o)` is non-zero exactly
when `o` is in `S`. -/
theorem C8_open_options (S : List Int) (hS : ∀ x ∈ S, x ∈ openOptions) (o : Int)
    (ho : o ∈ openOptions) :
    (LOG_CONS = 1 ∧ LOG_NDELAY = 2 ∧ LOG_NOWAIT = 4 ∧ LOG_ODELAY = 8 ∧ LOG_PERROR = 16 ∧
        LOG_PID = 32) ∧
      openOptions = [shl 1 0, shl 1 1, shl 1 2, shl 1 3, shl 1 4, shl 1 5] ∧
      openOptions.Pairwise (fun a b => Int.land a b = 0) ∧
      (Int.land (orOptions S) o ≠ 0 ↔ o ∈ S) := by
  refine ⟨by decide, rfl, by decide, ?_⟩
  have h := options_foldl S 0 (by decide) hS o ho
  have hz : ∀ x ∈ openOptions, Int.land ((0 : Nat) : Int) x = 0 := by decide
  unfold orOptions
  rw [hz o ho] at h
  simpa using h

/-- The option set `LOG_CONS | LOG_PID` tested for `LOG_PID`. -/
theorem C8_open_options_witness :
    (LOG_CONS = 1 ∧ LOG_NDELAY = 2 ∧ LOG_NOWAIT = 4 ∧ LOG_ODELAY = 8 ∧ LOG_PERROR = 16 ∧
        LOG_PID = 32) ∧
      openOptions = [shl 1 0, shl 1 1, shl 1 2, shl 1 3, shl 1 4, shl 1 5] ∧
      openOptions.Pairwise (fun a b => Int.land a b = 0) ∧
      (Int.land (orOptions [LOG_CONS, LOG_PID]) LOG_PID ≠ 0 ↔ LOG_PID ∈ [LOG_CONS, LOG_PID]) :=
  C8_open_options [LOG_CONS, LOG_PID] (by decide) LOG_PID (by decide)

end Syslog
